import Mathlib

/-!
Shallow embedding of the RDB storage layer of `pfnopt` (file
`pfnopt/storages/rdb.py`) and proofs about its repository operations.

The storage state is modelled as explicit lists of table rows (one list
per ORM model class); every repository method of `RDBStorage` becomes a
pure function from a `Storage` state to `Except Err` of the new state.
Python floats are modelled as `Rat`; timestamps as `Nat` supplied
explicitly by the caller (`datetime.now()` becomes a `now` argument);
`json.dumps`/`json.loads` round-trips are modelled as the identity on a
small `Json` value type.
-/

set_option autoImplicit false

namespace PfnOpt

/-- Error taxonomy of the storage layer: `notFound` models the exception
raised by a strict lookup (`allow_none=False`), `invariantViolation`
models a failed `assert` on an idempotent re-write, `alreadyExists`
models the failure of `check_and_add` on a duplicate descriptor, and
`schemaIncompatible` models the `RuntimeError` raised by
`_check_table_schema_compatibility`. -/
inductive Err where
  | notFound
  | alreadyExists
  | invariantViolation
  | schemaIncompatible
deriving DecidableEq, Repr

/-- Modelled from the spec: trial states, `state ∈ {RUNNING, COMPLETE, FAIL}`
(the `pfnopt.trial.State` enum is not part of the given sources). -/
inductive State where
  | running
  | complete
  | fail
deriving DecidableEq, Repr

/-- Modelled from the spec: a state is terminal (finished) iff it is
COMPLETE or FAIL. -/
def State.is_finished : State → Bool
  | .running => false
  | .complete => true
  | .fail => true

/-- JSON values, used for attribute maps. `json.dumps` / `json.loads`
round-trips are modelled as the identity on this type. -/
inductive Json where
  | null
  | num (v : Rat)
  | str (s : String)
  | obj (fields : List (String × Json))
deriving Repr

/-- Modelled from the spec: the parameter search-space descriptor is an
opaque tagged variant with an internal-to-external decoding rule
(the `pfnopt.distributions` module is an external collaborator; the
design notes describe bounded-continuous / bounded-integer / categorical
kinds).  Continuous kinds decode to themselves; a categorical descriptor
decodes the internal index into the chosen value. -/
inductive Distribution where
  | uniform (low high : Rat)
  | loguniform (low high : Rat)
  | categorical (choices : List Rat)
deriving DecidableEq, Repr

/-- Modelled from the spec: the internal-to-external decoding rule of a
descriptor. -/
def Distribution.to_external_repr : Distribution → Rat → Rat
  | .uniform _ _, v => v
  | .loguniform _ _, v => v
  | .categorical choices, v => choices.getD v.floor.toNat 0

/-- Serialization of a descriptor is out of scope (opaque, round-trip
faithful); the stored "JSON" column simply holds the descriptor. -/
def distribution_to_json (d : Distribution) : Distribution := d

/-- Deserialization of a descriptor (inverse of `distribution_to_json`). -/
def json_to_distribution (d : Distribution) : Distribution := d

/-- Row of the `studies` table: numeric primary key and globally unique
UUID string. -/
structure StudyModel where
  study_id : Nat
  study_uuid : String
deriving DecidableEq, Repr

/-- Row of the `study_user_attributes` table: (study_id, key) unique,
JSON-encoded value. -/
structure StudyUserAttributeModel where
  study_id : Nat
  key : String
  value_json : Json
deriving Repr

/-- Row of the `trials` table. -/
structure TrialModel where
  trial_id : Nat
  study_id : Nat
  state : State
  value : Option Rat
  user_attributes_json : Json
  datetime_start : Option Nat
  datetime_complete : Option Nat
deriving Repr

/-- Row of the `param_distributions` table: the declared search-space
descriptor of one parameter of one trial; (trial_id, param_name) unique. -/
structure TrialParamDistributionModel where
  param_distribution_id : Nat
  trial_id : Nat
  param_name : String
  distribution_json : Distribution
deriving DecidableEq, Repr

/-- Row of the `trial_params` table: a recorded internal parameter value;
(trial_id, param_distribution_id) unique.  The ORM relation
`param.param_distribution` is embedded directly. -/
structure TrialParamModel where
  trial_id : Nat
  param_distribution : TrialParamDistributionModel
  param_value : Rat
deriving DecidableEq, Repr

/-- Row of the `trial_values` table: one intermediate value per
(trial_id, step). -/
structure TrialValueModel where
  trial_id : Nat
  step : Nat
  value : Rat
deriving DecidableEq, Repr

/-- Singleton row of the `version_info` table. -/
structure VersionInfoModel where
  schema_version : Nat
  library_version : String
deriving DecidableEq, Repr

/-- The whole backing store: one list of rows per table, plus the
auto-increment counters for the two numeric primary keys. -/
structure Storage where
  studies : List StudyModel
  study_user_attributes : List StudyUserAttributeModel
  trials : List TrialModel
  trial_param_distributions : List TrialParamDistributionModel
  trial_params : List TrialParamModel
  trial_values : List TrialValueModel
  version_info : Option VersionInfoModel
  next_study_id : Nat
  next_trial_id : Nat
deriving Repr

/-- Key of the reserved system-attribute entry (`SYSTEM_ATTRS_KEY` of
`pfnopt.storages.base`, an external constant; the exact string is
irrelevant to the logic). -/
def SYSTEM_ATTRS_KEY : String := "__system__"

/-- Python dict assignment `d[k] = v` on an insertion-ordered
association list: update in place when the key is present, append
otherwise. -/
def updAssoc {α : Type} [BEq α] {β : Type} : List (α × β) → α → β → List (α × β)
  | [], k, v => [(k, v)]
  | (a, b) :: rest, k, v =>
    if a == k then (a, v) :: rest else (a, b) :: updAssoc rest k v

/-- Python dict lookup `d[k]` on an association list. -/
def lookupAssoc {α : Type} [BEq α] {β : Type} : List (α × β) → α → Option β
  | [], _ => none
  | (a, b) :: rest, k => if a == k then some b else lookupAssoc rest k

/-- Modelled from the spec: `StudyModel.find_by_id` (strict lookup in
`pfnopt.storages.models`, not part of the given sources; "fail with
NotFound if absent"). -/
def findStudyById (s : Storage) (study_id : Nat) : Option StudyModel :=
  s.studies.find? (fun st => st.study_id == study_id)

/-- Modelled from the spec: `StudyModel.find_by_uuid` (strict lookup). -/
def findStudyByUuid (s : Storage) (study_uuid : String) : Option StudyModel :=
  s.studies.find? (fun st => st.study_uuid == study_uuid)

/-- Modelled from the spec: `TrialModel.find_by_id` (strict lookup). -/
def findTrialById (s : Storage) (trial_id : Nat) : Option TrialModel :=
  s.trials.find? (fun t => t.trial_id == trial_id)

/-- Modelled from the spec: `TrialParamDistributionModel.find_by_trial_and_param_name`
resolves the descriptor registered for (trial, param name). -/
def findDistributionByTrialAndParamName (s : Storage) (trial_id : Nat) (param_name : String) :
    Option TrialParamDistributionModel :=
  s.trial_param_distributions.find?
    (fun d => d.trial_id == trial_id && d.param_name == param_name)

/-- Modelled from the spec: `TrialParamModel.find_by_trial_and_param_name`
looks up the recorded value row whose descriptor has the given name. -/
def findParamByTrialAndParamName (s : Storage) (trial_id : Nat) (param_name : String) :
    Option TrialParamModel :=
  s.trial_params.find?
    (fun p => p.trial_id == trial_id && p.param_distribution.param_name == param_name)

/-- Modelled from the spec: `TrialValueModel.find_by_trial_and_step`. -/
def findValueByTrialAndStep (s : Storage) (trial_id : Nat) (step : Nat) :
    Option TrialValueModel :=
  s.trial_values.find? (fun v => v.trial_id == trial_id && v.step == step)

/-- Observer: the recorded internal value for (trial, param name), if any. -/
def storedParam (s : Storage) (trial_id : Nat) (param_name : String) : Option Rat :=
  (findParamByTrialAndParamName s trial_id param_name).map (fun p => p.param_value)

/-- RDBStorage.set_study_user_attr: checks the study exists, then updates
the (study_id, key) attribute row in place or inserts a fresh one. -/
def set_study_user_attr (s : Storage) (study_id : Nat) (key : String) (value : Json) :
    Except Err Storage :=
  match findStudyById s study_id with
  | none => .error .notFound
  | some _ =>
    match s.study_user_attributes.find? (fun a => a.study_id == study_id && a.key == key) with
    | none =>
      .ok { s with study_user_attributes :=
              s.study_user_attributes ++ [⟨study_id, key, value⟩] }
    | some _ =>
      .ok { s with study_user_attributes :=
              s.study_user_attributes.map (fun a =>
                if a.study_id == study_id && a.key == key then
                  { a with value_json := value }
                else a) }

/-- RDBStorage.create_new_study_id: inserts a study row with a fresh
UUID and initializes the reserved system-attribute entry.  The UUID
generation loop is modelled by passing the candidate UUID explicitly;
the loop's exit condition (`find_by_uuid` returns nothing) becomes a
hypothesis of the theorems. -/
def create_new_study_id (s : Storage) (study_uuid : String) : Except Err (Storage × Nat) :=
  let study : StudyModel := ⟨s.next_study_id, study_uuid⟩
  let s1 : Storage :=
    { s with studies := s.studies ++ [study], next_study_id := s.next_study_id + 1 }
  match set_study_user_attr s1 study.study_id SYSTEM_ATTRS_KEY (.obj []) with
  | .error e => .error e
  | .ok s2 => .ok (s2, study.study_id)

/-- RDBStorage.get_study_id_from_uuid: strict lookup by UUID. -/
def get_study_id_from_uuid (s : Storage) (study_uuid : String) : Except Err Nat :=
  match findStudyByUuid s study_uuid with
  | none => .error .notFound
  | some st => .ok st.study_id

/-- RDBStorage.get_study_uuid_from_id: strict lookup by id. -/
def get_study_uuid_from_id (s : Storage) (study_id : Nat) : Except Err String :=
  match findStudyById s study_id with
  | none => .error .notFound
  | some st => .ok st.study_uuid

/-- RDBStorage.get_study_user_attrs: no existence check on the study; the
dict comprehension over the `where_study_id` rows becomes a fold of dict
assignments over the filtered rows. -/
def get_study_user_attrs (s : Storage) (study_id : Nat) : List (String × Json) :=
  let attributes := s.study_user_attributes.filter (fun a => a.study_id == study_id)
  attributes.foldl (fun acc a => updAssoc acc a.key a.value_json) []

/-- RDBStorage.set_trial_param_distribution: `check_and_add` fails when a
descriptor for (trial_id, param_name) already exists, otherwise inserts
(modelled from the spec: "a parameter's search-space descriptor is fixed
once per trial"). -/
def set_trial_param_distribution (s : Storage) (trial_id : Nat) (param_name : String)
    (distribution : Distribution) : Except Err Storage :=
  if s.trial_param_distributions.any
      (fun d => d.trial_id == trial_id && d.param_name == param_name) then
    .error .alreadyExists
  else
    .ok { s with trial_param_distributions :=
            s.trial_param_distributions ++
              [⟨s.trial_param_distributions.length, trial_id, param_name,
                distribution_to_json distribution⟩] }

/-- RDBStorage.create_new_trial_id: inserts a trial row in RUNNING state
with the reserved empty system-attribute entry.  The foreign-key check on
study_id is modelled from the spec ("fails with NotFound if studyId is
invalid (enforced by the FK)"; the FK lives in the schema module, not in
the given sources). -/
def create_new_trial_id (s : Storage) (study_id : Nat) (now : Nat) :
    Except Err (Storage × Nat) :=
  if s.studies.any (fun st => st.study_id == study_id) then
    let trial : TrialModel :=
      { trial_id := s.next_trial_id
        study_id := study_id
        state := .running
        value := none
        user_attributes_json := .obj [(SYSTEM_ATTRS_KEY, .obj [])]
        datetime_start := some now
        datetime_complete := none }
    .ok ({ s with trials := s.trials ++ [trial], next_trial_id := s.next_trial_id + 1 },
         s.next_trial_id)
  else .error .notFound

/-- RDBStorage.set_trial_state: strict trial lookup, then sets the state
and, when the new state is finished, stamps `datetime_complete` with the
current time. -/
def set_trial_state (s : Storage) (trial_id : Nat) (state : State) (now : Nat) :
    Except Err Storage :=
  match findTrialById s trial_id with
  | none => .error .notFound
  | some _ =>
    .ok { s with trials := s.trials.map (fun t =>
            if t.trial_id == trial_id then
              { t with state := state
                       datetime_complete :=
                         if state.is_finished then some now else t.datetime_complete }
            else t) }

/-- RDBStorage.set_trial_param: strict trial lookup, strict descriptor
lookup, then the idempotent insert-or-verify: an existing row must carry
the same value (`assert`, modelled as `invariantViolation`), otherwise a
fresh row is inserted.  The `IntegrityError` swallow on commit handles a
cross-process race only and is unreachable in this sequential model. -/
def set_trial_param (s : Storage) (trial_id : Nat) (param_name : String) (param_value : Rat) :
    Except Err Storage :=
  match findTrialById s trial_id with
  | none => .error .notFound
  | some _ =>
    match findDistributionByTrialAndParamName s trial_id param_name with
    | none => .error .notFound
    | some param_distribution =>
      match findParamByTrialAndParamName s trial_id param_name with
      | some param =>
        if param.param_value == param_value then .ok s else .error .invariantViolation
      | none =>
        .ok { s with trial_params :=
                s.trial_params ++ [⟨trial_id, param_distribution, param_value⟩] }

/-- RDBStorage.set_trial_value: strict trial lookup, then an unconditional
overwrite of the objective-value column. -/
def set_trial_value (s : Storage) (trial_id : Nat) (value : Rat) : Except Err Storage :=
  match findTrialById s trial_id with
  | none => .error .notFound
  | some _ =>
    .ok { s with trials := s.trials.map (fun t =>
            if t.trial_id == trial_id then { t with value := some value } else t) }

/-- RDBStorage.set_trial_intermediate_value: strict trial lookup, then
the same idempotent insert-or-verify pattern as `set_trial_param`, keyed
by (trial_id, step). -/
def set_trial_intermediate_value (s : Storage) (trial_id : Nat) (step : Nat)
    (intermediate_value : Rat) : Except Err Storage :=
  match findTrialById s trial_id with
  | none => .error .notFound
  | some _ =>
    match findValueByTrialAndStep s trial_id step with
    | some trial_value =>
      if trial_value.value == intermediate_value then .ok s
      else .error .invariantViolation
    | none =>
      .ok { s with trial_values :=
              s.trial_values ++ [⟨trial_id, step, intermediate_value⟩] }

/-- RDBStorage.set_trial_user_attr: strict trial lookup, then a whole-blob
read-modify-write of the JSON attribute map. -/
def set_trial_user_attr (s : Storage) (trial_id : Nat) (key : String) (value : Json) :
    Except Err Storage :=
  match findTrialById s trial_id with
  | none => .error .notFound
  | some _ =>
    .ok { s with trials := s.trials.map (fun t =>
            if t.trial_id == trial_id then
              { t with user_attributes_json :=
                  match t.user_attributes_json with
                  | .obj fields => .obj (updAssoc fields key value)
                  | other => other }
            else t) }

/-- Modelled from the spec: the caller-facing trial aggregate
(`pfnopt.trial.Trial`, not part of the given sources): id, state,
external and internal parameter maps, decoded attribute map, objective
value, intermediate-value map, start/completion timestamps. -/
structure Trial where
  trial_id : Nat
  state : State
  params : List (String × Rat)
  user_attrs : Json
  value : Option Rat
  intermediate_values : List (Nat × Rat)
  params_in_internal_repr : List (String × Rat)
  datetime_start : Option Nat
  datetime_complete : Option Nat
deriving Repr

/-- RDBStorage._merge_trials_orm: groups parameter and intermediate-value
rows by trial id (a `defaultdict(list)` grouping reads back as the
order-preserving filter by trial id), keys trial rows by id with
dict-assignment semantics, then builds one aggregate per trial id: the
external parameter map decodes the stored internal value through the
descriptor's rule and the internal map retains the raw value; the
intermediate map is keyed by step. -/
def merge_trials_orm (trials : List TrialModel) (trial_params : List TrialParamModel)
    (trial_intermediate_values : List TrialValueModel) : List Trial :=
  let id_to_trial := trials.foldl (fun acc t => updAssoc acc t.trial_id t) []
  id_to_trial.map (fun pair =>
    let trial_id := pair.1
    let trial := pair.2
    let params_of_trial := trial_params.filter (fun p => p.trial_id == trial_id)
    let maps := params_of_trial.foldl
      (fun (acc : List (String × Rat) × List (String × Rat)) p =>
        (updAssoc acc.1 p.param_distribution.param_name
           ((json_to_distribution p.param_distribution.distribution_json).to_external_repr
             p.param_value),
         updAssoc acc.2 p.param_distribution.param_name p.param_value))
      ([], [])
    let values_of_trial :=
      trial_intermediate_values.filter (fun v => v.trial_id == trial_id)
    let intermediate_values :=
      values_of_trial.foldl (fun acc v => updAssoc acc v.step v.value) []
    { trial_id := trial_id
      state := trial.state
      params := maps.1
      user_attrs := trial.user_attributes_json
      value := trial.value
      intermediate_values := intermediate_values
      params_in_internal_repr := maps.2
      datetime_start := trial.datetime_start
      datetime_complete := trial.datetime_complete })

/-- RDBStorage.get_trial: `.one()` fails when the row is absent; the
parameter and value rows of the trial feed the assembler. -/
def get_trial (s : Storage) (trial_id : Nat) : Except Err Trial :=
  match findTrialById s trial_id with
  | none => .error .notFound
  | some trial =>
    let params := s.trial_params.filter (fun p => p.trial_id == trial_id)
    let values := s.trial_values.filter (fun v => v.trial_id == trial_id)
    match merge_trials_orm [trial] params values with
    | [] => .error .notFound
    | t :: _ => .ok t

/-- RDBStorage.get_all_trials: all trial rows of the study together with
the joined parameter and intermediate-value rows, assembled into
aggregates. -/
def get_all_trials (s : Storage) (study_id : Nat) : List Trial :=
  let trials := s.trials.filter (fun t => t.study_id == study_id)
  let trial_ids := trials.map (fun t => t.trial_id)
  let params := s.trial_params.filter (fun p => trial_ids.contains p.trial_id)
  let values := s.trial_values.filter (fun v => trial_ids.contains v.trial_id)
  merge_trials_orm trials params values

/-- RDBStorage._check_table_schema_compatibility: reads the singleton
version row; when absent, inserts the compiled schema version (the
`IntegrityError` swallow handles a cross-process race only and is
unreachable sequentially); when present, a schema-version mismatch with
the compiled version is fatal.  The compiled constants
(`models.SCHEMA_VERSION`, `version.__version__`) live outside the given
sources and are passed as parameters. -/
def check_table_schema_compatibility (compiled_schema_version : Nat)
    (compiled_library_version : String) (s : Storage) : Except Err Storage :=
  match s.version_info with
  | none =>
    let fresh : VersionInfoModel := ⟨compiled_schema_version, compiled_library_version⟩
    .ok { s with version_info := some fresh }
  | some version_info =>
    if version_info.schema_version ≠ compiled_schema_version then
      .error .schemaIncompatible
    else .ok s

/-- RDBStorage.__init__: table creation is idempotent (a no-op on the row
model), then the schema-compatibility gate runs; a gate failure means the
storage object is not constructed. -/
def rdb_storage_init (compiled_schema_version : Nat) (compiled_library_version : String)
    (s : Storage) : Except Err Storage :=
  check_table_schema_compatibility compiled_schema_version compiled_library_version s

/-! ### Concrete states used by witnesses and counterexamples -/

/-- Descriptor for parameter "x" of trial 1, decoding internal 2 to
external 4 (categorical choices `[0, 0, 4]`, index 2 chooses 4). -/
def exDist : TrialParamDistributionModel := ⟨0, 1, "x", .categorical [0, 0, 4]⟩

/-- A trial row that has already finished: objective 1, completion
timestamp 55. -/
def exTrial : TrialModel :=
  { trial_id := 1
    study_id := 0
    state := .complete
    value := some 1
    user_attributes_json := .obj [(SYSTEM_ATTRS_KEY, .obj [])]
    datetime_start := some 10
    datetime_complete := some 55 }

/-- A small populated store: one study (id 0, uuid "u-0"), one finished
trial (id 1), one registered descriptor for ("x" of trial 1), no recorded
parameter values, schema version 1. -/
def exStorage : Storage :=
  { studies := [⟨0, "u-0"⟩]
    study_user_attributes := [⟨0, SYSTEM_ATTRS_KEY, .obj []⟩]
    trials := [exTrial]
    trial_param_distributions := [exDist]
    trial_params := []
    trial_values := []
    version_info := some ⟨1, "0.0.1"⟩
    next_study_id := 1
    next_trial_id := 2 }

/-- Alias used by the schema-guard witness. -/
def w5_storage : Storage := exStorage

/-- Store after `set_trial_param exStorage 1 "x" 2`. -/
def c1_s1 : Storage := { exStorage with trial_params := [⟨1, exDist, 2⟩] }

/-- Store after `set_trial_value exStorage 1 2`. -/
def c2_s1 : Storage := { exStorage with trials := [{ exTrial with value := some 2 }] }

/-- Store after `set_trial_state exStorage 1 .complete 99`. -/
def c7_s1 : Storage :=
  { exStorage with trials := [{ exTrial with state := .complete, datetime_complete := some 99 }] }

/-- Store after `set_trial_state exStorage 1 .running 99`: the trial is
reverted to RUNNING but keeps its old completion timestamp 55. -/
def c9_s1 : Storage := { exStorage with trials := [{ exTrial with state := .running }] }

/-- The trial row inserted by `create_new_trial_id exStorage 0 99`. -/
def c4_newTrial : TrialModel :=
  { trial_id := 2
    study_id := 0
    state := .running
    value := none
    user_attributes_json := .obj [(SYSTEM_ATTRS_KEY, .obj [])]
    datetime_start := some 99
    datetime_complete := none }

/-- Store after `create_new_trial_id exStorage 0 99`. -/
def c4_s1 : Storage :=
  { exStorage with trials := [exTrial, c4_newTrial], next_trial_id := 3 }

/-- Store after `create_new_study_id exStorage "u-1"`. -/
def c8_s1 : Storage :=
  { exStorage with
      studies := [⟨0, "u-0"⟩, ⟨1, "u-1"⟩]
      study_user_attributes :=
        [⟨0, SYSTEM_ATTRS_KEY, .obj []⟩, ⟨1, SYSTEM_ATTRS_KEY, .obj []⟩]
      next_study_id := 2 }

/-- The aggregate assembled from `exTrial` with the single recorded
parameter value 2 for "x": externally decoded to 4. -/
def c6_param : TrialParamModel := ⟨1, exDist, 2⟩

/-- Expected output aggregate of the assembler on
`[exTrial], [c6_param], []`. -/
def c6_result : Trial :=
  { trial_id := 1
    state := .complete
    params := [("x", 4)]
    user_attrs := .obj [(SYSTEM_ATTRS_KEY, .obj [])]
    value := some 1
    intermediate_values := []
    params_in_internal_repr := [("x", 2)]
    datetime_start := some 10
    datetime_complete := some 55 }

/-! ### Helper lemmas about association lists, `find?` and folds -/

theorem find?_append_none {α : Type} (p : α → Bool) (l₁ l₂ : List α)
    (h : l₁.find? p = none) : (l₁ ++ l₂).find? p = l₂.find? p := by
  rw [List.find?_append, h]
  rfl

theorem beq_false_of_ne {α : Type} [BEq α] [LawfulBEq α] {a b : α} (h : a ≠ b) :
    (a == b) = false := by
  cases hb : a == b
  · rfl
  · exact absurd (eq_of_beq hb) h

theorem lookupAssoc_updAssoc_self {α β : Type} [BEq α] [LawfulBEq α]
    (l : List (α × β)) (k : α) (v : β) :
    lookupAssoc (updAssoc l k v) k = some v := by
  induction l with
  | nil => simp [updAssoc, lookupAssoc]
  | cons hd tl ih =>
    obtain ⟨a, b⟩ := hd
    cases hak : a == k
    · simp [updAssoc, lookupAssoc, hak, ih]
    · simp [updAssoc, lookupAssoc, hak]

theorem lookupAssoc_updAssoc_ne {α β : Type} [BEq α] [LawfulBEq α]
    (l : List (α × β)) (k k' : α) (v : β) (h : k' ≠ k) :
    lookupAssoc (updAssoc l k v) k' = lookupAssoc l k' := by
  induction l with
  | nil =>
    have hkk : (k == k') = false := beq_false_of_ne (fun he => h he.symm)
    simp [updAssoc, lookupAssoc, hkk]
  | cons hd tl ih =>
    obtain ⟨a, b⟩ := hd
    cases hak : a == k
    · cases hak' : a == k'
      · simp [updAssoc, lookupAssoc, hak, hak', ih]
      · simp [updAssoc, lookupAssoc, hak, hak']
    · have ha : a = k := eq_of_beq hak
      have hk' : (a == k') = false :=
        beq_false_of_ne (fun he => h ((ha ▸ he : k = k').symm))
      simp [updAssoc, lookupAssoc, hak, hk']

theorem lookupAssoc_foldl_updAssoc_of_ne {α β γ : Type} [BEq α] [LawfulBEq α]
    (f : γ → α) (g : γ → β) (l : List γ) (k : α) (h : ∀ x ∈ l, f x ≠ k) :
    ∀ init : List (α × β),
      lookupAssoc (l.foldl (fun acc x => updAssoc acc (f x) (g x)) init) k =
        lookupAssoc init k := by
  induction l with
  | nil => intro init; rfl
  | cons hd tl ih =>
    intro init
    rw [List.foldl_cons, ih (fun x hx => h x (List.mem_cons_of_mem _ hx)),
        lookupAssoc_updAssoc_ne _ _ _ _ (fun he => h hd (List.mem_cons_self _ _) he.symm)]

theorem lookupAssoc_foldl_updAssoc_eq {α β γ : Type} [BEq α] [LawfulBEq α]
    (f : γ → α) (g : γ → β) :
    ∀ (l : List γ) (init : List (α × β)) (p : γ), p ∈ l → (l.map f).Nodup →
      lookupAssoc init (f p) = none →
      lookupAssoc (l.foldl (fun acc x => updAssoc acc (f x) (g x)) init) (f p) = some (g p) := by
  intro l
  induction l with
  | nil =>
    intro init p hp
    cases hp
  | cons hd tl ih =>
    intro init p hp hnd hinit
    rw [List.map_cons, List.nodup_cons] at hnd
    rw [List.foldl_cons]
    rcases List.mem_cons.mp hp with rfl | hmem
    · have htl : ∀ x ∈ tl, f x ≠ f p := by
        intro x hx he
        exact hnd.1 (he ▸ List.mem_map_of_mem f hx)
      rw [lookupAssoc_foldl_updAssoc_of_ne f g tl (f p) htl, lookupAssoc_updAssoc_self]
    · have hne : f p ≠ f hd := by
        intro he
        exact hnd.1 (he ▸ List.mem_map_of_mem f hmem)
      exact ih (updAssoc init (f hd) (g hd)) p hmem hnd.2
        (by rw [lookupAssoc_updAssoc_ne _ _ _ _ hne]; exact hinit)

theorem merge_maps_foldl_split (group : List TrialParamModel) :
    ∀ a b : List (String × Rat),
      group.foldl (fun acc p =>
        (updAssoc acc.1 p.param_distribution.param_name
            ((json_to_distribution p.param_distribution.distribution_json).to_external_repr
              p.param_value),
         updAssoc acc.2 p.param_distribution.param_name p.param_value)) (a, b) =
      (group.foldl (fun acc p => updAssoc acc p.param_distribution.param_name
          ((json_to_distribution p.param_distribution.distribution_json).to_external_repr
            p.param_value)) a,
       group.foldl (fun acc p => updAssoc acc p.param_distribution.param_name p.param_value)
         b) := by
  induction group with
  | nil => intro a b; rfl
  | cons hd tl ih =>
    intro a b
    rw [List.foldl_cons, List.foldl_cons, List.foldl_cons]
    exact ih _ _

theorem mem_updAssoc {α β : Type} [BEq α] [LawfulBEq α] :
    ∀ (l : List (α × β)) (k : α) (v : β) (pr : α × β),
      pr ∈ updAssoc l k v → pr ∈ l ∨ pr = (k, v) := by
  intro l
  induction l with
  | nil =>
    intro k v pr h
    simp only [updAssoc, List.mem_singleton] at h
    exact .inr h
  | cons hd tl ih =>
    obtain ⟨a, b⟩ := hd
    intro k v pr h
    cases hak : a == k
    · rw [updAssoc, hak] at h
      simp only [Bool.false_eq_true, if_false] at h
      rcases List.mem_cons.mp h with rfl | hmem
      · exact .inl (List.mem_cons_self _ _)
      · rcases ih k v pr hmem with hin | heq
        · exact .inl (List.mem_cons_of_mem _ hin)
        · exact .inr heq
    · rw [updAssoc, hak] at h
      simp only [if_true] at h
      rcases List.mem_cons.mp h with rfl | hmem
      · exact .inr (by rw [eq_of_beq hak])
      · exact .inl (List.mem_cons_of_mem _ hmem)

theorem mem_foldl_updAssoc {α β : Type} [BEq α] [LawfulBEq α] (f : β → α) :
    ∀ (l : List β) (acc : List (α × β)) (pr : α × β),
      pr ∈ l.foldl (fun acc x => updAssoc acc (f x) x) acc →
      pr ∈ acc ∨ ∃ x ∈ l, pr = (f x, x) := by
  intro l
  induction l with
  | nil =>
    intro acc pr h
    exact .inl h
  | cons hd tl ih =>
    intro acc pr h
    rw [List.foldl_cons] at h
    rcases ih (updAssoc acc (f hd) hd) pr h with hin | ⟨x, hx, hxe⟩
    · rcases mem_updAssoc acc (f hd) hd pr hin with hin' | heq
      · exact .inl hin'
      · exact .inr ⟨hd, List.mem_cons_self _ _, heq⟩
    · exact .inr ⟨x, List.mem_cons_of_mem _ hx, hxe⟩

theorem findTrialById_map_update (s : Storage) (tid : Nat) (f : TrialModel → TrialModel)
    (hf : ∀ t, (f t).trial_id = t.trial_id) :
    (s.trials.map f).find? (fun t => t.trial_id == tid) = (findTrialById s tid).map f := by
  rw [List.find?_map f s.trials]
  have hcomp : ((fun t : TrialModel => t.trial_id == tid) ∘ f) =
      (fun t : TrialModel => t.trial_id == tid) := by
    funext t
    simp [Function.comp, hf]
  rw [hcomp]
  rfl

theorem set_study_user_attr_preserves (s : Storage) (study_id : Nat) (key : String)
    (value : Json) (s' : Storage) (h : set_study_user_attr s study_id key value = .ok s') :
    s'.studies = s.studies := by
  unfold set_study_user_attr at h
  split at h
  next hfs => exact Except.noConfusion h
  next st hfs =>
    split at h
    next hfa =>
      rw [← Except.ok.inj h]
    next a hfa =>
      rw [← Except.ok.inj h]

theorem set_trial_state_ok_elim (s : Storage) (tid : Nat) (st : State) (now : Nat)
    (s' : Storage) (h : set_trial_state s tid st now = .ok s') :
    ∃ t0, findTrialById s tid = some t0 ∧ (t0.trial_id == tid) = true ∧
      s' = { s with trials := s.trials.map (fun t =>
        if t.trial_id == tid then
          { t with state := st
                   datetime_complete :=
                     if st.is_finished then some now else t.datetime_complete }
        else t) } := by
  unfold set_trial_state at h
  split at h
  next hft => exact Except.noConfusion h
  next t0 hft =>
    have hft' : s.trials.find? (fun t => t.trial_id == tid) = some t0 := hft
    have hpred := List.find?_some hft'
    exact ⟨t0, hft, hpred, (Except.ok.inj h).symm⟩

theorem trial_update_preserves_id (tid : Nat) (st : State) (now : Nat) :
    ∀ t : TrialModel,
      ((if t.trial_id == tid then
          { t with state := st
                   datetime_complete :=
                     if st.is_finished then some now else t.datetime_complete }
        else t) : TrialModel).trial_id = t.trial_id := by
  intro t
  cases htt : t.trial_id == tid
  · simp
  · simp

/-! ### Claim theorems -/

/-- C5: at storage construction, a present schema-version row whose stored
version differs from the compiled schema version fails initialization
fatally with SchemaIncompatible (the storage object is not constructed);
a matching stored version lets construction succeed. -/
theorem schema_guard_version_check (compiled_schema_version : Nat)
    (compiled_library_version : String) (s : Storage) (vi : VersionInfoModel)
    (h : s.version_info = some vi) :
    rdb_storage_init compiled_schema_version compiled_library_version s =
      (if vi.schema_version = compiled_schema_version then .ok s
       else .error .schemaIncompatible) := by
  simp only [rdb_storage_init, check_table_schema_compatibility, h]
  by_cases hv : vi.schema_version = compiled_schema_version
  · simp [hv]
  · simp [hv]

/-- Witness for C5: a store stamped with schema version 1 is rejected by
a build compiled against schema version 2 and accepted by a build
compiled against schema version 1. -/
theorem schema_guard_version_check_witness :
    rdb_storage_init 2 "0.0.2" w5_storage = .error .schemaIncompatible ∧
    rdb_storage_init 1 "0.0.2" w5_storage = .ok w5_storage :=
  ⟨(schema_guard_version_check 2 "0.0.2" w5_storage ⟨1, "0.0.1"⟩ rfl).trans
      (if_neg (by decide)),
   (schema_guard_version_check 1 "0.0.2" w5_storage ⟨1, "0.0.1"⟩ rfl).trans
      (if_pos rfl)⟩

/-- C7: for every existing trial and every state, `set_trial_state` sets
the trial's state to the requested state regardless of the prior state,
and the completion timestamp afterwards is the current time exactly when
the new state is terminal, and the old timestamp otherwise. -/
theorem set_trial_state_overwrites_and_stamps (s : Storage) (tid : Nat) (st : State)
    (now : Nat) (s' : Storage) (h : set_trial_state s tid st now = .ok s') :
    (findTrialById s' tid).map (fun t => t.state) = some st ∧
    (findTrialById s' tid).map (fun t => t.datetime_complete) =
      (findTrialById s tid).map (fun t =>
        if st.is_finished then some now else t.datetime_complete) := by
  obtain ⟨t0, hft, hpred, hs'⟩ := set_trial_state_ok_elim s tid st now s' h
  subst hs'
  have hfind :
      findTrialById { s with trials := s.trials.map (fun t =>
        if t.trial_id == tid then
          { t with state := st
                   datetime_complete :=
                     if st.is_finished then some now else t.datetime_complete }
        else t) } tid =
      (findTrialById s tid).map (fun t =>
        if t.trial_id == tid then
          { t with state := st
                   datetime_complete :=
                     if st.is_finished then some now else t.datetime_complete }
        else t) :=
    findTrialById_map_update s tid _ (trial_update_preserves_id tid st now)
  have hpe : t0.trial_id = tid := by simpa using hpred
  rw [hfind, hft]
  simp [hpe]

/-- C9: `set_trial_state` with the non-terminal state RUNNING modifies
only the state field of the trial row: every other field, in particular
an old (possibly non-null) completion timestamp, is left in place. -/
theorem set_trial_state_running_preserves_completion (s : Storage) (tid : Nat)
    (now : Nat) (s' : Storage) (h : set_trial_state s tid .running now = .ok s') :
    findTrialById s' tid =
      (findTrialById s tid).map (fun t => { t with state := State.running }) ∧
    (findTrialById s' tid).map (fun t => t.datetime_complete) =
      (findTrialById s tid).map (fun t => t.datetime_complete) := by
  obtain ⟨t0, hft, hpred, hs'⟩ := set_trial_state_ok_elim s tid .running now s' h
  subst hs'
  have hfind :
      findTrialById { s with trials := s.trials.map (fun t =>
        if t.trial_id == tid then
          { t with state := State.running
                   datetime_complete :=
                     if State.is_finished .running then some now else t.datetime_complete }
        else t) } tid =
      (findTrialById s tid).map (fun t =>
        if t.trial_id == tid then
          { t with state := State.running
                   datetime_complete :=
                     if State.is_finished .running then some now else t.datetime_complete }
        else t) :=
    findTrialById_map_update s tid _ (trial_update_preserves_id tid .running now)
  have hpe : t0.trial_id = tid := by simpa using hpred
  rw [hfind, hft]
  constructor
  · simp [hpe, State.is_finished]
  · simp [hpe, State.is_finished]

/-- C10: `get_study_user_attrs` performs no existence check: for a study
id with no study row (in a store whose attribute rows all reference
existing studies) it returns the empty attribute map, while the strict
lookup `get_study_uuid_from_id` fails with NotFound on the same id. -/
theorem get_study_user_attrs_no_existence_check (s : Storage) (study_id : Nat)
    (hfk : ∀ a ∈ s.study_user_attributes, ∃ st ∈ s.studies, st.study_id = a.study_id)
    (hno : ∀ st ∈ s.studies, st.study_id ≠ study_id) :
    get_study_user_attrs s study_id = [] ∧
    get_study_uuid_from_id s study_id = .error .notFound := by
  constructor
  · have hfil : s.study_user_attributes.filter (fun a => a.study_id == study_id) = [] := by
      rw [List.filter_eq_nil_iff]
      intro a ha
      obtain ⟨st, hst, hsteq⟩ := hfk a ha
      have hane : a.study_id ≠ study_id := fun he => hno st hst (hsteq.trans he)
      simpa using hane
    simp only [get_study_user_attrs, hfil]
    rfl
  · have hfind : findStudyById s study_id = none := by
      rw [findStudyById, List.find?_eq_none]
      intro st hst
      simpa using hno st hst
    simp only [get_study_uuid_from_id, hfind]

/-- Witness for C7: completing trial 1 of the example store records state
COMPLETE and stamps completion time 99 (the trial exists, so the call
succeeds). -/
theorem set_trial_state_overwrites_and_stamps_witness :
    set_trial_state exStorage 1 .complete 99 = .ok c7_s1 ∧
    ((findTrialById c7_s1 1).map (fun t => t.state) = some .complete ∧
     (findTrialById c7_s1 1).map (fun t => t.datetime_complete) =
       (findTrialById exStorage 1).map (fun t =>
         if State.is_finished .complete then some 99 else t.datetime_complete)) :=
  ⟨rfl, set_trial_state_overwrites_and_stamps exStorage 1 .complete 99 c7_s1 rfl⟩

/-- Witness for C9: reverting the already-finished trial 1 (completion
timestamp 55) back to RUNNING leaves the stale timestamp 55 in place. -/
theorem set_trial_state_running_preserves_completion_witness :
    set_trial_state exStorage 1 .running 99 = .ok c9_s1 ∧
    (findTrialById c9_s1 1 =
       (findTrialById exStorage 1).map (fun t => { t with state := State.running }) ∧
     (findTrialById c9_s1 1).map (fun t => t.datetime_complete) =
       (findTrialById exStorage 1).map (fun t => t.datetime_complete)) ∧
    (findTrialById c9_s1 1).map (fun t => t.datetime_complete) = some (some 55) := by
  have h := set_trial_state_running_preserves_completion exStorage 1 99 c9_s1 rfl
  exact ⟨rfl, h, h.2.trans (by decide)⟩

/-- Witness for C10: study id 7 was never created in the example store,
yet `get_study_user_attrs` returns the empty map while the strict UUID
lookup fails with NotFound. -/
theorem get_study_user_attrs_no_existence_check_witness :
    get_study_user_attrs exStorage 7 = [] ∧
    get_study_uuid_from_id exStorage 7 = .error .notFound :=
  get_study_user_attrs_no_existence_check exStorage 7 (by decide) (by decide)

/-- C3: `set_trial_param` on an existing trial with no registered
descriptor for the parameter name fails with NotFound, and no value is
recorded for that (trial, name) (in a store whose value rows all embed a
registered descriptor of their own trial, none can exist). -/
theorem set_trial_param_requires_descriptor (s : Storage) (tid : Nat) (n : String) (v : Rat)
    (htrial : (findTrialById s tid).isSome = true)
    (hdesc : findDistributionByTrialAndParamName s tid n = none)
    (hrows : ∀ p ∈ s.trial_params, p.param_distribution.trial_id = p.trial_id ∧
      p.param_distribution ∈ s.trial_param_distributions) :
    set_trial_param s tid n v = .error .notFound ∧ storedParam s tid n = none := by
  have hdesc' : s.trial_param_distributions.find?
      (fun d => d.trial_id == tid && d.param_name == n) = none := hdesc
  constructor
  · obtain ⟨t0, hft⟩ := Option.isSome_iff_exists.mp htrial
    unfold set_trial_param
    rw [hft, hdesc]
  · have hnone : findParamByTrialAndParamName s tid n = none := by
      rw [findParamByTrialAndParamName, List.find?_eq_none]
      intro p hp hpred
      simp only [Bool.and_eq_true, beq_iff_eq] at hpred
      obtain ⟨h1, h2⟩ := hpred
      obtain ⟨hdtid, hdmem⟩ := hrows p hp
      apply List.find?_eq_none.mp hdesc' p.param_distribution hdmem
      simp only [Bool.and_eq_true, beq_iff_eq]
      exact ⟨hdtid.trans h1, h2⟩
    rw [storedParam, hnone]
    rfl

/-- Witness for C3: trial 1 exists in the example store but parameter "y"
has no descriptor, so recording a value for "y" fails with NotFound and
nothing is stored. -/
theorem set_trial_param_requires_descriptor_witness :
    set_trial_param exStorage 1 "y" 2 = .error .notFound ∧
    storedParam exStorage 1 "y" = none :=
  set_trial_param_requires_descriptor exStorage 1 "y" 2 (by decide) (by decide) (by decide)

/-- C2 counterexample: in the example store trial 1 already holds
objective value 1; a later `set_trial_value` with the different value 2
does NOT fail with InvariantViolation — it succeeds and silently replaces
the stored value with 2. -/
theorem set_trial_value_overwrite_cex :
    (findTrialById exStorage 1).map (fun t => t.value) = some (some 1) ∧
    set_trial_value exStorage 1 2 = .ok c2_s1 ∧
    (findTrialById c2_s1 1).map (fun t => t.value) = some (some 2) ∧
    set_trial_value exStorage 1 2 ≠ .error .invariantViolation := by
  refine ⟨by decide, rfl, by decide, ?_⟩
  intro hcontra
  have hok : set_trial_value exStorage 1 2 = .ok c2_s1 := rfl
  exact Except.noConfusion (hok.symm.trans hcontra)

/-- C2 amended: `set_trial_value` is keyed by trial id alone and is an
unconditional direct column overwrite — whenever it succeeds, the stored
objective value afterwards is the supplied value, regardless of what was
stored before (no idempotent-insert-or-verify check, no
InvariantViolation). -/
theorem set_trial_value_unconditional_overwrite (s : Storage) (tid : Nat) (v : Rat)
    (s' : Storage) (h : set_trial_value s tid v = .ok s') :
    (findTrialById s' tid).map (fun t => t.value) = some (some v) := by
  unfold set_trial_value at h
  split at h
  next hft => exact Except.noConfusion h
  next t0 hft =>
    have hs' := (Except.ok.inj h).symm
    subst hs'
    have hfind : findTrialById { s with trials := s.trials.map (fun t =>
          if t.trial_id == tid then { t with value := some v } else t) } tid =
        (findTrialById s tid).map (fun t =>
          if t.trial_id == tid then { t with value := some v } else t) :=
      findTrialById_map_update s tid _
        (fun t => by cases htt : t.trial_id == tid <;> simp [htt])
    have hft' : s.trials.find? (fun t => t.trial_id == tid) = some t0 := hft
    have hpe : t0.trial_id = tid := by simpa using List.find?_some hft'
    rw [hfind, hft]
    simp [hpe]

/-- Witness for C2's amended claim: overwriting the stored objective 1 of
trial 1 with 2 succeeds and the slot afterwards holds 2. -/
theorem set_trial_value_unconditional_overwrite_witness :
    set_trial_value exStorage 1 2 = .ok c2_s1 ∧
    (findTrialById c2_s1 1).map (fun t => t.value) = some (some 2) :=
  ⟨rfl, set_trial_value_unconditional_overwrite exStorage 1 2 c2_s1 rfl⟩

/-- C1: whenever `set_trial_param` succeeds in recording value v for
(trial, name) — which presupposes a registered descriptor — repeating the
call with the same v succeeds again and leaves the store (hence the
stored value, which is v) unchanged, while repeating it with a different
value fails with InvariantViolation instead of silently choosing a
value. -/
theorem set_trial_param_idempotent_or_fatal (s s1 : Storage) (tid : Nat) (n : String)
    (v v2 : Rat) (hne : v2 ≠ v) (h1 : set_trial_param s tid n v = .ok s1) :
    set_trial_param s1 tid n v = .ok s1 ∧
    storedParam s1 tid n = some v ∧
    set_trial_param s1 tid n v2 = .error .invariantViolation := by
  unfold set_trial_param at h1
  split at h1
  next hft => exact Except.noConfusion h1
  next t0 hft =>
  split at h1
  next hfd => exact Except.noConfusion h1
  next d hfd =>
  split at h1
  next p hfp =>
    -- the value row already existed: the assert compared values
    split at h1
    next hpv =>
      -- same value: the call returned the store unchanged
      have hs1 : s = s1 := Except.ok.inj h1
      subst hs1
      have hpveq : p.param_value = v := eq_of_beq hpv
      refine ⟨?_, ?_, ?_⟩
      · simp only [set_trial_param, hft, hfd, hfp, hpv]
        simp
      · rw [storedParam, hfp]
        simp [hpveq]
      · have hpv2 : (p.param_value == v2) = false := by
          rw [hpveq]
          exact beq_false_of_ne (fun he => hne he.symm)
        simp only [set_trial_param, hft, hfd, hfp, hpv2]
        simp
    next hpv => exact Except.noConfusion h1
  next hfp =>
    -- fresh insert of the value row
    have hs1 := Except.ok.inj h1
    subst hs1
    have hfp' : s.trial_params.find?
        (fun p => p.trial_id == tid && p.param_distribution.param_name == n) = none := hfp
    have hdn : (d.param_name == n) = true := by
      have hd' : s.trial_param_distributions.find?
          (fun d => d.trial_id == tid && d.param_name == n) = some d := hfd
      have hsome := List.find?_some hd'
      exact ((Bool.and_eq_true _ _).mp hsome).2
    have hprednew :
        (({ trial_id := tid, param_distribution := d, param_value := v } :
            TrialParamModel).trial_id == tid &&
         ({ trial_id := tid, param_distribution := d, param_value := v} :
            TrialParamModel).param_distribution.param_name == n) = true := by
      simp only [Bool.and_eq_true]
      exact ⟨by simp, hdn⟩
    have f3' : List.find?
        (fun p : TrialParamModel => p.trial_id == tid && p.param_distribution.param_name == n)
        (s.trial_params ++ [{ trial_id := tid, param_distribution := d, param_value := v }]) =
        some { trial_id := tid, param_distribution := d, param_value := v } := by
      rw [find?_append_none _ _ _ hfp']
      exact List.find?_cons_of_pos _ hprednew
    have f3 : findParamByTrialAndParamName
        { s with trial_params := s.trial_params ++
            [{ trial_id := tid, param_distribution := d, param_value := v }] } tid n =
        some { trial_id := tid, param_distribution := d, param_value := v } := f3'
    have f1 : findTrialById
        { s with trial_params := s.trial_params ++
            [{ trial_id := tid, param_distribution := d, param_value := v }] } tid =
        some t0 := hft
    have f2 : findDistributionByTrialAndParamName
        { s with trial_params := s.trial_params ++
            [{ trial_id := tid, param_distribution := d, param_value := v }] } tid n =
        some d := hfd
    have hvv : (({ trial_id := tid, param_distribution := d, param_value := v } :
        TrialParamModel).param_value == v) = true := by simp
    have hvv2 : (({ trial_id := tid, param_distribution := d, param_value := v } :
        TrialParamModel).param_value == v2) = false :=
      beq_false_of_ne (fun he => hne he.symm)
    refine ⟨?_, ?_, ?_⟩
    · simp only [set_trial_param, f1, f2, f3, hvv]
      simp
    · rw [storedParam, f3]
      rfl
    · simp only [set_trial_param, f1, f2, f3, hvv2]
      simp

/-- Witness for C1: recording value 2 for ("x", trial 1) against the
registered descriptor succeeds; recording 2 again succeeds unchanged with
stored value 2, and recording 3 afterwards is an InvariantViolation. -/
theorem set_trial_param_idempotent_or_fatal_witness :
    (3 : Rat) ≠ 2 ∧
    set_trial_param exStorage 1 "x" 2 = .ok c1_s1 ∧
    (set_trial_param c1_s1 1 "x" 2 = .ok c1_s1 ∧
     storedParam c1_s1 1 "x" = some 2 ∧
     set_trial_param c1_s1 1 "x" 3 = .error .invariantViolation) :=
  ⟨by decide, rfl,
   set_trial_param_idempotent_or_fatal exStorage c1_s1 1 "x" 2 3 (by decide) rfl⟩

/-- C4: `create_new_trial_id` on a study id with no study row fails with
NotFound and inserts nothing; on an existing study id it inserts exactly
one trial row, in RUNNING state with the empty reserved system-attribute
entry, and returns that row's id (in a store whose trial ids are below
the id counter). -/
theorem create_new_trial_id_spec (s : Storage) (study_id now : Nat) (s' : Storage)
    (tid : Nat) (hids : ∀ t ∈ s.trials, t.trial_id < s.next_trial_id) :
    ((∀ st ∈ s.studies, st.study_id ≠ study_id) →
        create_new_trial_id s study_id now = .error .notFound) ∧
    (create_new_trial_id s study_id now = .ok (s', tid) →
      (findTrialById s' tid).map (fun t => t.state) = some .running ∧
      (findTrialById s' tid).map (fun t => t.user_attributes_json) =
        some (.obj [(SYSTEM_ATTRS_KEY, .obj [])]) ∧
      s'.trials.length = s.trials.length + 1) := by
  constructor
  · intro hno
    unfold create_new_trial_id
    have hany : ¬ (s.studies.any (fun st => st.study_id == study_id) = true) := by
      rw [List.any_eq_true]
      rintro ⟨st, hmem, hpred⟩
      exact hno st hmem (by simpa using hpred)
    rw [if_neg hany]
  · intro h
    unfold create_new_trial_id at h
    split at h
    next hany =>
      have hinj := Except.ok.inj h
      rw [Prod.mk.injEq] at hinj
      obtain ⟨hs', htid⟩ := hinj
      subst hs'
      subst htid
      have hpre : s.trials.find? (fun t => t.trial_id == s.next_trial_id) = none := by
        rw [List.find?_eq_none]
        intro t ht
        simpa using Nat.ne_of_lt (hids t ht)
      simp only [findTrialById]
      rw [find?_append_none _ _ _ hpre, List.find?_cons_of_pos _ (by simp)]
      refine ⟨rfl, rfl, ?_⟩
      simp
    next hany => exact Except.noConfusion h

/-- Witness for C4: creating a trial under the nonexistent study 5 fails
with NotFound; creating one under the existing study 0 yields trial id 2
in RUNNING state with the empty reserved attribute entry and one more
trial row. -/
theorem create_new_trial_id_spec_witness :
    create_new_trial_id exStorage 5 99 = .error .notFound ∧
    ((findTrialById c4_s1 2).map (fun t => t.state) = some .running ∧
     (findTrialById c4_s1 2).map (fun t => t.user_attributes_json) =
       some (.obj [(SYSTEM_ATTRS_KEY, .obj [])]) ∧
     c4_s1.trials.length = exStorage.trials.length + 1) :=
  ⟨(create_new_trial_id_spec exStorage 5 99 exStorage 0 (by decide)).1 (by decide),
   (create_new_trial_id_spec exStorage 0 99 c4_s1 2 (by decide)).2 rfl⟩

/-- C8: a study created by `create_new_study_id` (with a fresh UUID, in a
store whose study ids are below the id counter) satisfies the round-trip
`get_study_id_from_uuid (get_study_uuid_from_id id) = id`. -/
theorem create_study_roundtrip (s : Storage) (study_uuid : String) (s1 : Storage)
    (study_id : Nat)
    (hids : ∀ st ∈ s.studies, st.study_id < s.next_study_id)
    (hfresh : findStudyByUuid s study_uuid = none)
    (h : create_new_study_id s study_uuid = .ok (s1, study_id)) :
    (get_study_uuid_from_id s1 study_id).bind (fun u => get_study_id_from_uuid s1 u) =
      .ok study_id := by
  simp only [create_new_study_id] at h
  split at h
  next e heq => exact Except.noConfusion h
  next s2 heq =>
    have hinj := Except.ok.inj h
    rw [Prod.mk.injEq] at hinj
    obtain ⟨hx, hsid⟩ := hinj
    subst hx
    subst hsid
    have hstudies : s2.studies =
        s.studies ++ [⟨s.next_study_id, study_uuid⟩] :=
      set_study_user_attr_preserves _ _ _ _ _ heq
    have hpre : s.studies.find? (fun st => st.study_id == s.next_study_id) = none := by
      rw [List.find?_eq_none]
      intro st hst
      simpa using Nat.ne_of_lt (hids st hst)
    have hfresh' : s.studies.find? (fun st => st.study_uuid == study_uuid) = none := hfresh
    have hbyid : findStudyById s2 s.next_study_id =
        some ⟨s.next_study_id, study_uuid⟩ := by
      rw [findStudyById, hstudies, find?_append_none _ _ _ hpre]
      exact List.find?_cons_of_pos _ (by simp)
    have hbyuuid : findStudyByUuid s2 study_uuid =
        some ⟨s.next_study_id, study_uuid⟩ := by
      rw [findStudyByUuid, hstudies, find?_append_none _ _ _ hfresh']
      exact List.find?_cons_of_pos _ (by simp)
    simp only [Except.bind, get_study_uuid_from_id, hbyid, get_study_id_from_uuid, hbyuuid]

/-- Witness for C8: creating a second study "u-1" in the example store
returns id 1, and the UUID/id lookups round-trip on it. -/
theorem create_study_roundtrip_witness :
    create_new_study_id exStorage "u-1" = .ok (c8_s1, 1) ∧
    (get_study_uuid_from_id c8_s1 1).bind (fun u => get_study_id_from_uuid c8_s1 u) =
      .ok 1 :=
  ⟨rfl, create_study_roundtrip exStorage "u-1" c8_s1 1 (by decide) (by decide) rfl⟩

/-- C6: for every input row set whose parameter names are unique within
the trial (the (trial, name) uniqueness constraint of the schema), each
aggregate returned by the assembler maps, for every parameter row of that
trial, the parameter's name in the external map to the descriptor's
decoding rule applied to the stored internal value, and in the internal
map to the stored internal value itself. -/
theorem merge_trials_orm_param_decode (trials : List TrialModel)
    (trial_params : List TrialParamModel) (trial_intermediate_values : List TrialValueModel)
    (tr : Trial) (p : TrialParamModel)
    (htr : tr ∈ merge_trials_orm trials trial_params trial_intermediate_values)
    (hp : p ∈ trial_params) (hpt : p.trial_id = tr.trial_id)
    (hnd : ((trial_params.filter (fun q => q.trial_id == tr.trial_id)).map
        (fun q => q.param_distribution.param_name)).Nodup) :
    lookupAssoc tr.params p.param_distribution.param_name =
      some ((json_to_distribution p.param_distribution.distribution_json).to_external_repr
        p.param_value) ∧
    lookupAssoc tr.params_in_internal_repr p.param_distribution.param_name =
      some p.param_value := by
  simp only [merge_trials_orm] at htr
  obtain ⟨pair, hpair, hbuild⟩ := List.mem_map.mp htr
  rcases mem_foldl_updAssoc (fun t : TrialModel => t.trial_id) trials [] pair hpair with
    hacc | ⟨t, htmem, hpe⟩
  · cases hacc
  · subst hpe
    subst hbuild
    dsimp only at hpt hnd ⊢
    rw [merge_maps_foldl_split]
    dsimp only
    have hpgroup : p ∈ trial_params.filter (fun q => q.trial_id == t.trial_id) :=
      List.mem_filter.mpr ⟨hp, by simpa using hpt⟩
    constructor
    · exact lookupAssoc_foldl_updAssoc_eq
        (fun q : TrialParamModel => q.param_distribution.param_name)
        (fun q : TrialParamModel =>
          (json_to_distribution q.param_distribution.distribution_json).to_external_repr
            q.param_value)
        (trial_params.filter (fun q => q.trial_id == t.trial_id)) [] p hpgroup hnd rfl
    · exact lookupAssoc_foldl_updAssoc_eq
        (fun q : TrialParamModel => q.param_distribution.param_name)
        (fun q : TrialParamModel => q.param_value)
        (trial_params.filter (fun q => q.trial_id == t.trial_id)) [] p hpgroup hnd rfl

/-- Witness for C6: assembling the example trial with its single
parameter row ("x", internal 2, categorical descriptor decoding 2 to 4)
yields external map value 4 and internal map value 2 at "x". -/
theorem merge_trials_orm_param_decode_witness :
    c6_result ∈ merge_trials_orm [exTrial] [c6_param] [] ∧
    lookupAssoc c6_result.params "x" = some 4 ∧
    lookupAssoc c6_result.params_in_internal_repr "x" = some 2 := by
  have hmem : c6_result ∈ merge_trials_orm [exTrial] [c6_param] [] :=
    List.mem_singleton.mpr rfl
  have h := merge_trials_orm_param_decode [exTrial] [c6_param] [] c6_result c6_param
    hmem (List.mem_singleton.mpr rfl) (by decide) (by decide)
  exact ⟨hmem, h.1.trans (by decide), h.2.trans (by decide)⟩

end PfnOpt
